import Mathlib

/-!
Verification of the format-conversion core of a chat-completion proxy
(`src/convert.ts` and companions).  The TypeScript functions are shallowly
embedded as executable Lean definitions: JavaScript objects become structures
with `Option` fields for possibly-absent properties, JS truthiness tests are
made explicit, and randomness (`uuid()`) is threaded as an explicit supply of
fresh strings.  The authoritative source is the current generation of the
converter (the one imported by `src/index.ts`): `mapFinishReason`,
`toModelMessages`, `toAnthropicResponse`, `toTools`, `resolveModelId` and the
streaming transformer `toAnthropicStream`.
-/

namespace ClaudeProxy

/-- A small model of JSON values (`JSON.stringify`-able data). -/
inductive Jx where
  | null
  | bool (b : Bool)
  | num (n : Int)
  | str (s : String)
  | arr (xs : List Jx)
  | obj (fields : List (String × Jx))

/-- JavaScript truthiness of a JSON value: `null`, `false`, `0` and the empty
string are falsy; every array and object is truthy. -/
def jsTruthy : Jx → Bool
  | .null => false
  | .bool b => b
  | .num n => n != 0
  | .str s => s != ""
  | .arr _ => true
  | .obj _ => true

/-- JS `a || b` on a possibly-absent string `a`: a present non-empty string
wins, otherwise the default is returned. -/
def jsOrStr (a : Option String) (d : String) : String :=
  match a with
  | some s => if s = "" then d else s
  | none => d

/-- JS `a || b` where both sides are possibly-absent strings (the result may
itself be absent, e.g. `"" || undefined`). -/
def jsOrStrOpt (a b : Option String) : Option String :=
  match a with
  | some s => if s = "" then b else some s
  | none => b

/-- Truthiness of a possibly-absent string. -/
def isTruthyStr (a : Option String) : Bool :=
  match a with
  | some s => s != ""
  | none => false

/-- JS `a || b` where both sides are possibly-absent JSON values. -/
def jsOrJx (a b : Option Jx) : Option Jx :=
  match a with
  | some v => if jsTruthy v then some v else b
  | none => b

/-- Whether `sub` is a prefix of `s` (on character lists). -/
def isPrefixList : List Char → List Char → Bool
  | [], _ => true
  | _ :: _, [] => false
  | a :: as, b :: bs => a == b && isPrefixList as bs

/-- Whether `sub` occurs contiguously inside `s` (on character lists). -/
def isInfixList (sub s : List Char) : Bool :=
  match s with
  | [] => isPrefixList sub []
  | _ :: rest => isPrefixList sub s || isInfixList sub rest

/-- Substring test, the embedding of JS `String.prototype.includes`. -/
def includesStr (s sub : String) : Bool :=
  isInfixList sub.data s.data

/-! ## JS property reads on plain-object records

A read `m[key]` on a plain object literal is not an own-key lookup: when the
own keys miss, the read falls through to the `Object.prototype` members
(`toString`, `valueOf`, `constructor`, ...), which are truthy non-string
values (functions, or the prototype object itself for `__proto__`), so a
subsequent `|| defaultValue` passes them through unchanged. -/

/-- The property names of `Object.prototype` inherited by plain object
literals. -/
def OBJECT_PROTOTYPE_KEYS : List String :=
  ["constructor", "hasOwnProperty", "isPrototypeOf", "propertyIsEnumerable",
   "toLocaleString", "toString", "valueOf", "__proto__",
   "__defineGetter__", "__defineSetter__", "__lookupGetter__",
   "__lookupSetter__"]

/-- The value read out of a string-valued plain-object record: an own string
value, an inherited `Object.prototype` member (truthy, not a string), or
undefined. -/
inductive JsProp where
  | str (s : String)
  | protoMember (key : String)
  | absent
deriving DecidableEq

/-- Property read `m[key]` on a plain-object string record, prototype chain
included. -/
def jsRecordGet (m : List (String × String)) (key : String) : JsProp :=
  match (m.find? (fun p => p.1 = key)).map Prod.snd with
  | some v => .str v
  | none =>
      if (OBJECT_PROTOTYPE_KEYS.find? (fun k => k = key)).isSome
      then .protoMember key else .absent

/-- The possible results of `m[key] || defaultString`: a string, or an
inherited truthy non-string member passed through by `||`. -/
inductive StopReasonVal where
  | str (s : String)
  | protoMember (key : String)
deriving DecidableEq

/-- JS `v || d` where `v` is a record read and `d` a default string: an own
empty-string value or undefined falls to the default; an inherited prototype
member is truthy and passes through. -/
def jsPropOr (v : JsProp) (d : String) : StopReasonVal :=
  match v with
  | .str s => if s = "" then .str d else .str s
  | .protoMember k => .protoMember k
  | .absent => .str d

/-! ## Finish-reason mapping (`mapFinishReason`, `FINISH_REASON_MAP`) -/

/-- The static `FINISH_REASON_MAP` table of the response assembler. -/
def FINISH_REASON_MAP : List (String × String) :=
  [("stop", "end_turn"),
   ("length", "max_tokens"),
   ("tool-calls", "tool_use"),
   ("content-filter", "end_turn"),
   ("stop-sequence", "stop_sequence")]

/-- `DEFAULT_FINISH_REASON` of the source. -/
def DEFAULT_FINISH_REASON : String := "end_turn"

/-- Embedding of `mapFinishReason(reason?: string)`: a missing or falsy
(empty) reason yields the default; otherwise
`(FINISH_REASON_MAP as any)[reason] || DEFAULT_FINISH_REASON` is a JS
property read, so a reason naming an `Object.prototype` member returns that
inherited truthy member, not the default. -/
def mapFinishReason (reason : Option String) : StopReasonVal :=
  match reason with
  | none => .str DEFAULT_FINISH_REASON
  | some r =>
      if r = "" then .str DEFAULT_FINISH_REASON
      else jsPropOr (jsRecordGet FINISH_REASON_MAP r) DEFAULT_FINISH_REASON

/-! ## Model id resolution (`resolveModelId`) -/

/-- The model-override environment bindings consulted by `resolveModelId`. -/
structure ModelOverrides where
  HAIKU_MODEL_ID : Option String
  SONNET_MODEL_ID : Option String
  OPUS_MODEL_ID : Option String

/-- The ordered keyword/override pair list built inside `resolveModelId`. -/
def overridePairs (env : ModelOverrides) : List (String × Option String) :=
  [("haiku", env.HAIKU_MODEL_ID),
   ("sonnet", env.SONNET_MODEL_ID),
   ("opus", env.OPUS_MODEL_ID)]

/-- The `for (const [keyword, override] of overrides)` loop body of
`resolveModelId`: return the first truthy override whose keyword occurs in
the model id, else fall back to the `anthropic:` namespace. -/
def resolveModelIdLoop (modelId : String) : List (String × Option String) → String
  | [] => "anthropic:" ++ modelId
  | (kw, ov) :: rest =>
      if includesStr modelId kw && isTruthyStr ov then ov.getD ""
      else resolveModelIdLoop modelId rest

/-- Embedding of `resolveModelId(modelOverrides, modelId)`. -/
def resolveModelId (env : ModelOverrides) (modelId : String) : String :=
  resolveModelIdLoop modelId (overridePairs env)

/-- The spec's description of model resolution, stated with `List.find?`:
the first keyword (in the fixed order haiku, sonnet, opus) that is a
substring of the requested id and has a non-empty configured override wins;
otherwise the original id is addressed under the default namespace. -/
def resolveModelIdSpec (env : ModelOverrides) (modelId : String) : String :=
  match (overridePairs env).find?
      (fun p => includesStr modelId p.1 && isTruthyStr p.2) with
  | some p => p.2.getD ""
  | none => "anthropic:" ++ modelId

/-! ## JSON serialization (`JSON.stringify`), used for tool-result content -/

mutual

/-- A simple model of `JSON.stringify` (escaping elided: the verified claims
only inspect plain string payloads). -/
def jsonStringify : Jx → String
  | .null => "null"
  | .bool b => cond b "true" "false"
  | .num n => toString n
  | .str s => "\"" ++ s ++ "\""
  | .arr xs => "[" ++ jsonStringifyArr xs ++ "]"
  | .obj fs => "\x7b" ++ jsonStringifyObj fs ++ "\x7d"

/-- Comma-joined serialization of an array body. -/
def jsonStringifyArr : List Jx → String
  | [] => ""
  | [x] => jsonStringify x
  | x :: y :: rest => jsonStringify x ++ "," ++ jsonStringifyArr (y :: rest)

/-- Comma-joined serialization of an object body. -/
def jsonStringifyObj : List (String × Jx) → String
  | [] => ""
  | [f] => "\"" ++ f.1 ++ "\":" ++ jsonStringify f.2
  | f :: g :: rest =>
      "\"" ++ f.1 ++ "\":" ++ jsonStringify f.2 ++ "," ++ jsonStringifyObj (g :: rest)

end

/-! ## Request data model (`AnthropicContentBlock`, `AnthropicMessage`) -/

/-- A `tool_result` block's `content`: a string or an array of JSON blocks. -/
inductive TrContent where
  | str (s : String)
  | arr (xs : List Jx)

/-- The wire-protocol content-block union of `schemas.ts`. -/
inductive ACBlock where
  | text (text : String)
  | image (sourceType mediaType data : String)
  | toolUse (id name : String) (input : Jx)
  | toolResult (toolUseId : String) (content : TrContent) (isError : Option Bool)

/-- A message's content: string shorthand or a block list. -/
inductive MsgContent where
  | str (s : String)
  | blocks (bs : List ACBlock)

/-- A wire-protocol request message.  The role is kept as a raw string so
that behaviour on unexpected roles can be stated. -/
structure AMessage where
  role : String
  content : MsgContent

/-- Embedding of `normalizeContentToArray`. -/
def normalizeContentToArray : MsgContent → List ACBlock
  | .str s => [.text s]
  | .blocks bs => bs

/-- The request's `system` field: a string or a list of typed blocks, each
modelled as a (type, text) pair. -/
inductive SystemField where
  | str (s : String)
  | blocks (bs : List (String × String))

/-- Embedding of `toSystemContent`: a string passes verbatim; a block list is
the newline-join of the text of text-typed blocks (with JS `|| ""`). -/
def toSystemContent : SystemField → String
  | .str s => s
  | .blocks bs =>
      jsOrStr (some (String.intercalate "\n"
        (bs.map (fun b => if b.1 = "text" then b.2 else "")))) ""

/-! ## Tool context map (`Map<string, string>`) -/

/-- The tool-context map (tool_use id to tool name), as an association list
with `Map.set` overwrite semantics. -/
abbrev ToolCtx := List (String × String)

/-- `Map.set`: overwrite the value in place, else append. -/
def ctxSet (m : ToolCtx) (k v : String) : ToolCtx :=
  match m with
  | [] => [(k, v)]
  | (k0, v0) :: rest => if k0 = k then (k, v) :: rest else (k0, v0) :: ctxSet rest k v

/-- `Map.get`. -/
def ctxGet (m : ToolCtx) (k : String) : Option String :=
  (m.find? (fun p => p.1 = k)).map Prod.snd

/-- Embedding of `extractToolContext`: rebuild the map from the `tool_use`
blocks of one assistant turn. -/
def extractToolContext (blocks : List ACBlock) : ToolCtx :=
  blocks.foldl
    (fun m b =>
      match b with
      | .toolUse id name _ => ctxSet m id name
      | _ => m) []

/-! ## Generic model messages (the AI SDK `ModelMessage` output) -/

/-- A user-content part. -/
inductive UserPart where
  | text (t : String)
  | image (dataUri : String)

/-- The `output` field of a tool-result part. -/
inductive ToolOutput where
  | errorText (v : String)
  | text (v : String)

/-- A tool-result part of a generic tool message. -/
structure ToolResPart where
  toolCallId : String
  toolName : String
  result : String
  output : ToolOutput
  isError : Bool

/-- An assistant-content part. -/
inductive AsstPart where
  | text (t : String)
  | toolCall (toolCallId toolName : String) (input : Jx)

/-- The generic model-message union. -/
inductive ModelMsg where
  | system (content : String)
  | user (content : List UserPart)
  | assistant (content : List AsstPart)
  | tool (content : List ToolResPart)

/-- Whether a tool name is skipped by the allow-list: JS
`availableTools && !availableTools.has(name)`. -/
def skipByAvail (avail : Option (List String)) (name : String) : Bool :=
  match avail with
  | some l => !(l.contains name)
  | none => false

/-- Truthiness of the optional `is_error` flag. -/
def isErrTruthy (o : Option Bool) : Bool := o.getD false

/-- Result of `processUserContentBlocks`. -/
structure UserBlocksResult where
  userContent : List UserPart
  toolMessages : List ModelMsg

/-- The generic tool message emitted for one `tool_result` block: the tool
name is resolved through the context map with the `"unknown_tool"` sentinel,
`is_error` selects an error-vs-text output kind. -/
def mkToolResultMessage (toolName toolUseId : String) (content : TrContent)
    (isError : Option Bool) : ModelMsg :=
  let toolContent :=
    match content with
    | .str s => s
    | .arr xs => jsonStringify (Jx.arr xs)
  ModelMsg.tool
    [{ toolCallId := toolUseId,
       toolName := toolName,
       result := toolContent,
       output := if isErrTruthy isError then .errorText toolContent
                 else .text toolContent,
       isError := isErrTruthy isError }]

/-- Embedding of `processUserContentBlocks`: text and base64 images become
user parts; each `tool_result` becomes a separate generic tool message unless
its resolved name is outside the allow-list. -/
def processUserContentBlocks (blocks : List ACBlock) (ctx : ToolCtx)
    (avail : Option (List String)) : UserBlocksResult :=
  match blocks with
  | [] => { userContent := [], toolMessages := [] }
  | b :: rest =>
      let r := processUserContentBlocks rest ctx avail
      match b with
      | .text t => { r with userContent := .text t :: r.userContent }
      | .image st mt d =>
          if st = "base64" then
            { r with userContent :=
                .image ("data:" ++ mt ++ ";base64," ++ d) :: r.userContent }
          else r
      | .toolUse _ _ _ => r
      | .toolResult id content isErr =>
          let toolName := jsOrStr (ctxGet ctx id) "unknown_tool"
          if skipByAvail avail toolName then r
          else { r with toolMessages :=
              mkToolResultMessage toolName id content isErr :: r.toolMessages }

/-- Embedding of `processAssistantContentBlocks` (current generation, without
the duplicate-id guard): text passes through, `tool_use` becomes a tool-call
part unless filtered by the allow-list; `input` is defaulted via JS `|| {}`. -/
def processAssistantContentBlocks (blocks : List ACBlock)
    (avail : Option (List String)) : List AsstPart :=
  match blocks with
  | [] => []
  | .text t :: rest => .text t :: processAssistantContentBlocks rest avail
  | .toolUse id name input :: rest =>
      if skipByAvail avail name then processAssistantContentBlocks rest avail
      else .toolCall id name (if jsTruthy input then input else Jx.obj [])
           :: processAssistantContentBlocks rest avail
  | _ :: rest => processAssistantContentBlocks rest avail

/-- The single-pass state of `toModelMessages`: emitted messages plus the
current assistant turn's tool context. -/
structure ConvState where
  msgs : List ModelMsg
  ctx : ToolCtx

/-- One iteration of the message loop of `toModelMessages`: user messages
append their tool messages then the user message if non-empty; assistant
messages replace the tool context and append if non-empty after filtering;
every other role is ignored. -/
def stepMessage (avail : Option (List String)) (s : ConvState) (m : AMessage) :
    ConvState :=
  if m.role = "user" then
    let content := normalizeContentToArray m.content
    let r := processUserContentBlocks content s.ctx avail
    let msgs := s.msgs ++ r.toolMessages
    { s with msgs :=
        if r.userContent.length > 0 then msgs ++ [ModelMsg.user r.userContent]
        else msgs }
  else if m.role = "assistant" then
    let content := normalizeContentToArray m.content
    let ctx := extractToolContext content
    let ac := processAssistantContentBlocks content avail
    { msgs := if ac.length > 0 then s.msgs ++ [ModelMsg.assistant ac] else s.msgs,
      ctx := ctx }
  else s

/-- The optional leading system message of `toModelMessages`: pushed only
when `request.system` is truthy (an empty system string is skipped). -/
def systemMessages : Option SystemField → List ModelMsg
  | none => []
  | some (.str s) => if s = "" then [] else [.system (toSystemContent (.str s))]
  | some (.blocks bs) => [.system (toSystemContent (.blocks bs))]

/-- Embedding of `toModelMessages(request, availableTools)`: an optional
leading system message, then the single pass over the messages. -/
def toModelMessages (system : Option SystemField) (messages : List AMessage)
    (avail : Option (List String)) : List ModelMsg :=
  (messages.foldl (stepMessage avail)
    { msgs := systemMessages system, ctx := [] }).msgs

/-! ## Response assembly (`toAnthropicResponse`) -/

/-- A tool call as delivered by the generation layer; every property may be
absent (the source reads both `toolCallId`/`id`, `toolName`/`name` and
`input`/`args` defensively). -/
structure ToolCallIn where
  toolCallId : Option String
  id : Option String
  toolName : Option String
  name : Option String
  input : Option Jx
  args : Option Jx

/-- The usage counts of a completed generation. -/
structure UsageIn where
  inputTokens : Option Nat
  outputTokens : Option Nat
  cacheCreationInputTokens : Option Nat
  cacheReadInputTokens : Option Nat

/-- A completed generation result (`coreOutput`). -/
structure CoreOutput where
  text : Option String
  toolCalls : Option (List ToolCallIn)
  usage : Option UsageIn
  finishReason : Option String

/-- The response usage object. -/
structure UsageOut where
  input_tokens : Nat
  output_tokens : Nat
  cache_creation_input_tokens : Option Nat
  cache_read_input_tokens : Option Nat

/-- Embedding of `buildUsageObject`: input/output tokens default to 0; the
cache fields are copied only when present (`!== undefined`). -/
def buildUsageObject (usage : Option UsageIn) : UsageOut :=
  { input_tokens := (usage.bind (·.inputTokens)).getD 0,
    output_tokens := (usage.bind (·.outputTokens)).getD 0,
    cache_creation_input_tokens := usage.bind (·.cacheCreationInputTokens),
    cache_read_input_tokens := usage.bind (·.cacheReadInputTokens) }

/-- A response content block; `name` and `input` are copied from the call
without defaulting and so may be absent. -/
inductive RespBlock where
  | text (text : String)
  | toolUse (id : String) (name : Option String) (input : Option Jx)

/-- The tool_use blocks built by the `for (const toolCall of ...)` loop of
`toAnthropicResponse`; `genId` supplies the successive `uuid()` draws and `n`
counts the draws made so far (a draw happens only when the id must be
synthesized). -/
def toolUseBlocks (genId : Nat → String) : List ToolCallIn → Nat → List RespBlock
  | [], _ => []
  | c :: rest, n =>
      let idOpt := jsOrStrOpt c.toolCallId c.id
      if isTruthyStr idOpt then
        RespBlock.toolUse (idOpt.getD "") (jsOrStrOpt c.toolName c.name)
            (jsOrJx c.input c.args)
          :: toolUseBlocks genId rest n
      else
        RespBlock.toolUse ("toolu_" ++ genId n) (jsOrStrOpt c.toolName c.name)
            (jsOrJx c.input c.args)
          :: toolUseBlocks genId rest (n + 1)

/-- The response envelope. -/
structure AnthropicResp where
  id : String
  content : List RespBlock
  model : String
  stop_reason : StopReasonVal
  stop_sequence : Option String
  usage : UsageOut

/-- Embedding of `toAnthropicResponse(coreOutput, model, requestId)`;
`genMsgId` stands for `generateAnthropicId()` and `genId` for the `uuid()`
draws of synthesized tool ids. -/
def toAnthropicResponse (out : CoreOutput) (model : String)
    (requestId : Option String) (genId : Nat → String) (genMsgId : String) :
    AnthropicResp :=
  let textContent : List RespBlock :=
    if isTruthyStr out.text then [.text (out.text.getD "")] else []
  let toolContent : List RespBlock :=
    match out.toolCalls with
    | some calls => if calls.length > 0 then toolUseBlocks genId calls 0 else []
    | none => []
  { id := jsOrStr requestId genMsgId,
    content := textContent ++ toolContent,
    model := model,
    stop_reason := mapFinishReason out.finishReason,
    stop_sequence := none,
    usage := buildUsageObject out.usage }

/-- Modelled from the amended spec wording for the response content: a text
block iff the text field is non-empty, followed by one tool_use block per
tool call in order, the id preserved from `toolCallId` or `id` or else
synthesized with the `toolu_` prefix, the name from `toolName` or `name`, and
the input from `input` or `args` (left unset when the call supplies
neither). -/
def contentSpec (out : CoreOutput) (genId : Nat → String) : List RespBlock :=
  (if isTruthyStr out.text then [RespBlock.text (out.text.getD "")] else [])
    ++ toolUseBlocks genId (out.toolCalls.getD []) 0

/-! ## Tool adaptation (`toTools`) -/

/-- A declared tool entry as `toTools` receives it: a JS `null`, a
function-style tool (the object owns an `input_schema` property) or a
backend-native tool (no `input_schema`, a capability `type` tag). -/
inductive AnthToolDecl where
  | jsNull
  | funcTool (name : Option String) (description : Option String) (input_schema : Jx)
  | systemTool (name : Option String) (ttype : Option String)

/-- The converted tool values (the AI SDK `tool(...)` result or a provider
tool factory application, kept abstract). -/
inductive ConvTool where
  | funcTool (description : String) (schema : Jx)
  | providerTool (ttype : String)

/-- The `SERVER_TOOLS` set of the source. -/
def SERVER_TOOLS : List String := ["web_search"]

/-- The keys of the static `TYPE_TO_TOOL` lookup of the source. -/
def TYPE_TO_TOOL_KEYS : List String :=
  ["web_search_20250305", "bash_20241022", "bash_20250124",
   "computer_20241022", "computer_20250124",
   "text_editor_20241022", "text_editor_20250429", "text_editor_20250124"]

/-- The client/server tool records being filled in. -/
structure ToolGroups where
  client : List (String × ConvTool)
  server : List (String × ConvTool)

/-- JS property-key coercion of a possibly-absent name (`obj[undefined]`
uses the key `"undefined"`). -/
def jsPropKey (name : Option String) : String := name.getD "undefined"

/-- Record assignment `rec[key] = v` (overwrite in place, else append). -/
def recordSet (m : List (String × ConvTool)) (k : String) (v : ConvTool) :
    List (String × ConvTool) :=
  match m with
  | [] => [(k, v)]
  | (k0, v0) :: rest =>
      if k0 = k then (k, v) :: rest else (k0, v0) :: recordSet rest k v

/-- One `forEach` iteration of `toTools`, with JS runtime errors made
explicit: `"input_schema" in t` throws on a null entry, and
`TYPE_TO_TOOL[t.type](t)` throws when the tag has no entry (the lookup
yields `undefined`, which is not callable). -/
def toToolsStep (g : ToolGroups) (t : AnthToolDecl) : Except String ToolGroups :=
  match t with
  | .jsNull =>
      .error "TypeError: cannot use in operator to search for input_schema in null"
  | .funcTool name desc schema =>
      .ok { g with client :=
          recordSet g.client (jsPropKey name) (.funcTool (jsOrStr desc "") schema) }
  | .systemTool name ttype =>
      match ttype with
      | some ty =>
          if TYPE_TO_TOOL_KEYS.contains ty then
            if SERVER_TOOLS.contains (jsPropKey name) then
              .ok { g with server := recordSet g.server (jsPropKey name) (.providerTool ty) }
            else
              .ok { g with client := recordSet g.client (jsPropKey name) (.providerTool ty) }
          else .error "TypeError: TYPE_TO_TOOL lookup of t.type is undefined and not callable"
      | none => .error "TypeError: TYPE_TO_TOOL lookup of t.type is undefined and not callable"

/-- Embedding of `toTools(tools)` (current generation). -/
def toTools (tools : List AnthToolDecl) : Except String ToolGroups :=
  tools.foldlM toToolsStep { client := [], server := [] }

/-! ## Streaming protocol translator (`toAnthropicStream`, current generation)

The `TransformStream` closure is embedded as an explicit state machine:
`streamStart` produces the opening frames, `streamTransform` is the
per-event `transform` callback (returning the updated state and the frames
enqueued, or an error for `controller.error`), and `streamFlush` is the
`flush` callback.  `uuid()` draws are supplied by `genId`, indexed by a draw
counter carried in the state. -/

/-- The upstream AI SDK stream-part union, with the fields the translator
reads.  `finish` carries `totalUsage?.outputTokens` flattened to one option;
`finishStep` carries `usage` (outer option) and `usage.outputTokens` (inner
option); `source` carries the anthropic provider metadata fields read by the
translator. -/
inductive StreamPart where
  | textStart
  | textDelta (text : String)
  | textEnd
  | reasoningStart
  | reasoningDelta (text : String)
  | reasoningEnd
  | toolInputStart (id : String) (toolName : String)
  | toolInputDelta (id : String) (delta : String)
  | toolInputEnd
  | toolCall (toolCallId : String) (toolName : String) (input : Jx)
  | toolResult
  | toolError
  | start
  | startStep
  | finish (finishReason : String) (totalUsageOutputTokens : Option Nat)
  | finishStep (usage : Option (Option Nat))
  | error (message : String)
  | abort
  | source (sourceType url title : String) (encryptedContent metaContent pageAge : Option String)
  | unknown (ptype : String)

/-- The delta payload of a `content_block_delta` frame. -/
inductive DeltaKind where
  | textDelta (text : String)
  | inputJsonDelta (fragment : String)

/-- The downstream SSE frames, with their JSON payload fields. -/
inductive SSE where
  | messageStart (messageId model : String)
  | contentBlockStartText (index : Nat)
  | ping
  | contentBlockDelta (index : Nat) (delta : DeltaKind)
  | contentBlockStartToolUse (index : Nat) (id name : String) (input : Jx)
  | contentBlockStartWebSearch (index : Nat) (toolUseId url title : String)
      (pageAge : Option String) (encryptedContent : String)
  | contentBlockStop (index : Nat)
  | messageDelta (stopReason : StopReasonVal) (outputTokens : Nat)
  | messageStop
  | done

/-- The per-request mutable state of the translator closure.  `uuidDraws` is
a ghost counter indexing the `uuid()` draws of the `source` fallback id. -/
structure StreamState where
  contentIndex : Nat
  isContentOpen : Bool
  currentToolId : Option String
  currentWebSearchToolId : Option String
  finishReason : String
  outputTokens : Nat
  textBlockStarted : Bool
  textBlockClosed : Bool
  hasTextContent : Bool
  uuidDraws : Nat

/-- The closure state right after construction. -/
def initStreamState : StreamState :=
  { contentIndex := 0, isContentOpen := false, currentToolId := none,
    currentWebSearchToolId := none, finishReason := "stop", outputTokens := 0,
    textBlockStarted := false, textBlockClosed := false,
    hasTextContent := false, uuidDraws := 0 }

/-- The `start` callback: message_start, the eager text block 0 open, a ping;
it sets `textBlockStarted`. -/
def streamStart (messageId model : String) : StreamState × List SSE :=
  ({ initStreamState with textBlockStarted := true },
   [SSE.messageStart messageId model, SSE.contentBlockStartText 0, SSE.ping])

/-- The index used when stopping the text block:
`hasTextContent ? (textBlockClosed ? contentIndex : 0) : 0` as written in the
source. -/
def textStopIndex (s : StreamState) : Nat :=
  if s.hasTextContent then (if s.textBlockClosed then s.contentIndex else 0) else 0

/-- The shared close-the-text-block-if-open prologue of the tool-input-start,
tool-call and source cases. -/
def closeTextIfOpen (s : StreamState) : StreamState × List SSE :=
  if s.textBlockStarted && !s.textBlockClosed then
    ({ s with textBlockClosed := true }, [SSE.contentBlockStop (textStopIndex s)])
  else (s, [])

/-- The text-delta (and reasoning-delta) case body: reopen a text block at a
fresh index when the previous one was closed, then emit the delta at
`textBlockClosed ? contentIndex : 0` evaluated on the updated state. -/
def textDeltaStep (s : StreamState) (t : String) : StreamState × List SSE :=
  let s0 := { s with hasTextContent := true }
  let r : StreamState × List SSE :=
    if !s0.textBlockStarted || s0.textBlockClosed then
      if s0.textBlockClosed then
        let s1 := { s0 with contentIndex := s0.contentIndex + 1,
                            textBlockStarted := true, textBlockClosed := false }
        (s1, [SSE.contentBlockStartText s1.contentIndex])
      else (s0, [])
    else (s0, [])
  (r.1, r.2 ++ [SSE.contentBlockDelta
      (if r.1.textBlockClosed then r.1.contentIndex else 0) (.textDelta t)])

/-- The `transform` callback of the current `toAnthropicStream`, one case per
upstream part kind; an `error` part errors the stream. -/
def streamTransform (genId : Nat → String) (s : StreamState) (p : StreamPart) :
    Except String (StreamState × List SSE) :=
  match p with
  | .textStart => .ok ({ s with hasTextContent := true }, [])
  | .textDelta t => .ok (textDeltaStep s t)
  | .textEnd => .ok (s, [])
  | .reasoningStart => .ok ({ s with hasTextContent := true }, [])
  | .reasoningDelta t => .ok (textDeltaStep s t)
  | .reasoningEnd => .ok (s, [])
  | .toolInputStart id toolName =>
      let c := closeTextIfOpen s
      let s1 := { c.1 with contentIndex := c.1.contentIndex + 1 }
      .ok ({ s1 with isContentOpen := true, currentToolId := some id },
           c.2 ++ [SSE.contentBlockStartToolUse s1.contentIndex id toolName (Jx.obj [])])
  | .toolInputDelta id delta =>
      if s.isContentOpen && (s.currentToolId == some id) then
        .ok (s, [SSE.contentBlockDelta s.contentIndex (.inputJsonDelta delta)])
      else .ok (s, [])
  | .toolInputEnd =>
      if s.isContentOpen then
        .ok ({ s with isContentOpen := false },
             [SSE.contentBlockStop s.contentIndex])
      else .ok (s, [])
  | .toolCall toolCallId toolName input =>
      let c := closeTextIfOpen s
      let s1 := { c.1 with contentIndex := c.1.contentIndex + 1 }
      let s2 := if toolName = "web_search"
                then { s1 with currentWebSearchToolId := some toolCallId } else s1
      .ok ({ s2 with isContentOpen := false },
           c.2 ++ [SSE.contentBlockStartToolUse s2.contentIndex toolCallId toolName input,
                   SSE.contentBlockStop s2.contentIndex])
  | .toolResult => .ok (s, [])
  | .toolError => .ok (s, [])
  | .start => .ok (s, [])
  | .startStep => .ok (s, [])
  | .finish reason totalOut =>
      .ok ({ s with finishReason := reason, outputTokens := totalOut.getD 0 }, [])
  | .finishStep usage =>
      match usage with
      | some inner => .ok ({ s with outputTokens := inner.getD s.outputTokens }, [])
      | none => .ok (s, [])
  | .error msg => .error ("Stream error: " ++ msg)
  | .abort => .ok (s, [])
  | .source sourceType url title encryptedContent metaContent pageAge =>
      if sourceType = "url" then
        let toolUseId :=
          jsOrStr s.currentWebSearchToolId ("web_search_" ++ genId s.uuidDraws)
        let s0 := if isTruthyStr s.currentWebSearchToolId then s
                  else { s with uuidDraws := s.uuidDraws + 1 }
        let c := closeTextIfOpen s0
        let s1 := { c.1 with contentIndex := c.1.contentIndex + 1 }
        let enc := jsOrStr (jsOrStrOpt encryptedContent metaContent) url
        let age := jsOrStrOpt pageAge none
        .ok (s1, c.2 ++ [SSE.contentBlockStartWebSearch s1.contentIndex toolUseId url title age enc,
                         SSE.contentBlockStop s1.contentIndex])
      else .ok (s, [])
  | .unknown _ => .ok (s, [])

/-- The stop-reason map of the `flush` callback (it differs from the
non-streaming `FINISH_REASON_MAP`). -/
def flushStopReasonMap : List (String × String) :=
  [("stop", "end_turn"),
   ("length", "max_tokens"),
   ("content-filter", "content_filter"),
   ("tool-calls", "tool_use"),
   ("error", "error"),
   ("other", "stop_sequence"),
   ("unknown", "end_turn")]

/-- The `flush` callback: close a still-open tool block, close the text block
if never closed, then message_delta with the mapped stop reason and the
accumulated output tokens, message_stop, and the `[DONE]` sentinel. -/
def streamFlush (s : StreamState) : List SSE :=
  (if s.isContentOpen then [SSE.contentBlockStop s.contentIndex] else [])
  ++ (if s.textBlockStarted && !s.textBlockClosed then
        [SSE.contentBlockStop (textStopIndex s)]
      else [])
  ++ [SSE.messageDelta
        (jsPropOr (jsRecordGet flushStopReasonMap s.finishReason) "end_turn")
        s.outputTokens,
      SSE.messageStop, SSE.done]

/-- Run the `transform` callback over a whole upstream part list. -/
def processParts (genId : Nat → String) (s : StreamState) :
    List StreamPart → Except String (StreamState × List SSE)
  | [] => .ok (s, [])
  | p :: rest =>
      match streamTransform genId s p with
      | .error e => .error e
      | .ok (s1, evs) =>
          match processParts genId s1 rest with
          | .error e => .error e
          | .ok (s2, evs2) => .ok (s2, evs ++ evs2)

/-- The whole translation of a finite upstream stream: start frames, the
translated frames of each part in order, then finalization.  An upstream
`error` part aborts the translation (no finalization). -/
def toAnthropicStream (genId : Nat → String) (messageId model : String)
    (parts : List StreamPart) : Except String (List SSE) :=
  match processParts genId (streamStart messageId model).1 parts with
  | .error e => .error e
  | .ok (s, evs) =>
      .ok ((streamStart messageId model).2 ++ evs ++ streamFlush s)

/-! ## Counting helpers for stream properties -/

/-- The number of tool_use `content_block_start` frames carrying a given id. -/
def countToolUseOpens (tid : String) : List SSE → Nat
  | [] => 0
  | SSE.contentBlockStartToolUse _ id _ _ :: rest =>
      (if id = tid then 1 else 0) + countToolUseOpens tid rest
  | _ :: rest => countToolUseOpens tid rest

/-- How many tool_use blocks one upstream part opens for a given id:
tool-call and tool-input-start parts with that id open one each. -/
def partToolOpenCount (tid : String) : StreamPart → Nat
  | .toolInputStart id _ => if id = tid then 1 else 0
  | .toolCall id _ _ => if id = tid then 1 else 0
  | _ => 0

/-- Total tool_use block opens expected for a given id over a part list. -/
def partsToolOpenCount (tid : String) (parts : List StreamPart) : Nat :=
  (parts.map (partToolOpenCount tid)).sum

/-- Whether an upstream part is the fatal `error` kind. -/
def isErrorPart : StreamPart → Bool
  | .error _ => true
  | _ => false

/-! # Theorems -/

lemma countToolUseOpens_append (tid : String) (a b : List SSE) :
    countToolUseOpens tid (a ++ b) =
      countToolUseOpens tid a + countToolUseOpens tid b := by
  induction a with
  | nil => simp [countToolUseOpens]
  | cons e rest ih =>
      cases e <;> simp [countToolUseOpens, ih, Nat.add_assoc]

lemma countToolUseOpens_closeText (tid : String) (s : StreamState) :
    countToolUseOpens tid (closeTextIfOpen s).2 = 0 := by
  unfold closeTextIfOpen
  split <;> rfl

lemma countToolUseOpens_textDelta (tid : String) (s : StreamState) (t : String) :
    countToolUseOpens tid (textDeltaStep s t).2 = 0 := by
  unfold textDeltaStep
  dsimp only
  split <;> (try split) <;>
    simp [countToolUseOpens, countToolUseOpens_append]

lemma streamTransform_toolOpens (genId : Nat → String) (tid : String)
    (s : StreamState) (p : StreamPart) (hp : isErrorPart p = false) :
    ∃ s1 evs, streamTransform genId s p = .ok (s1, evs) ∧
      countToolUseOpens tid evs = partToolOpenCount tid p := by
  cases p with
  | textDelta t =>
      exact ⟨_, _, rfl, countToolUseOpens_textDelta tid _ t⟩
  | reasoningDelta t =>
      exact ⟨_, _, rfl, countToolUseOpens_textDelta tid _ t⟩
  | toolInputStart id toolName =>
      refine ⟨_, _, rfl, ?_⟩
      simp [countToolUseOpens_append, countToolUseOpens_closeText,
        countToolUseOpens, partToolOpenCount]
  | toolInputDelta id delta =>
      simp only [streamTransform]
      split
      · exact ⟨_, _, rfl, by simp [countToolUseOpens, partToolOpenCount]⟩
      · exact ⟨_, _, rfl, by simp [countToolUseOpens, partToolOpenCount]⟩
  | toolInputEnd =>
      simp only [streamTransform]
      split
      · exact ⟨_, _, rfl, by simp [countToolUseOpens, partToolOpenCount]⟩
      · exact ⟨_, _, rfl, by simp [countToolUseOpens, partToolOpenCount]⟩
  | toolCall id toolName input =>
      refine ⟨_, _, rfl, ?_⟩
      simp [countToolUseOpens_append, countToolUseOpens_closeText,
        countToolUseOpens, partToolOpenCount]
  | finishStep usage =>
      cases usage <;> exact ⟨_, _, rfl, rfl⟩
  | error msg => simp [isErrorPart] at hp
  | source st url title enc meta age =>
      simp only [streamTransform]
      split
      · refine ⟨_, _, rfl, ?_⟩
        simp [countToolUseOpens_append, countToolUseOpens_closeText,
          countToolUseOpens, partToolOpenCount]
      · exact ⟨_, _, rfl, by simp [countToolUseOpens, partToolOpenCount]⟩
  | _ => exact ⟨_, _, rfl, rfl⟩

lemma processParts_toolOpens (genId : Nat → String) (tid : String) :
    ∀ (parts : List StreamPart) (s : StreamState),
      parts.any isErrorPart = false →
      ∃ s1 evs, processParts genId s parts = .ok (s1, evs) ∧
        countToolUseOpens tid evs = partsToolOpenCount tid parts := by
  intro parts
  induction parts with
  | nil => exact fun s _ => ⟨s, [], rfl, rfl⟩
  | cons p rest ih =>
      intro s h
      rw [List.any_cons, Bool.or_eq_false_iff] at h
      obtain ⟨s1, evs, hstep, hcount⟩ :=
        streamTransform_toolOpens genId tid s p h.1
      obtain ⟨s2, evs2, hrest, hcount2⟩ := ih s1 h.2
      refine ⟨s2, evs ++ evs2, ?_, ?_⟩
      · simp [processParts, hstep, hrest]
      · simp [countToolUseOpens_append, hcount, hcount2, partsToolOpenCount]

lemma countToolUseOpens_flush (tid : String) (s : StreamState) :
    countToolUseOpens tid (streamFlush s) = 0 := by
  unfold streamFlush
  split <;> split <;> simp [countToolUseOpens]

/-- Claim C1: feeding the translator the event sequence text-delta("Hi"),
tool-call(id "t1", name "calc", input empty object), finish("tool-calls")
and finalizing produces exactly, in order: message_start,
content_block_start(0, text), ping, content_block_delta(0, "Hi"),
content_block_stop(0), content_block_start(1, tool_use "t1"),
content_block_stop(1), message_delta(stop_reason "tool_use",
output_tokens 0), message_stop, and the end-of-stream sentinel. -/
theorem stream_basic_sequence (genId : Nat → String) (messageId model : String) :
    toAnthropicStream genId messageId model
        [.textDelta "Hi", .toolCall "t1" "calc" (Jx.obj []),
         .finish "tool-calls" none]
      = .ok [SSE.messageStart messageId model, SSE.contentBlockStartText 0,
             SSE.ping, SSE.contentBlockDelta 0 (.textDelta "Hi"),
             SSE.contentBlockStop 0,
             SSE.contentBlockStartToolUse 1 "t1" "calc" (Jx.obj []),
             SSE.contentBlockStop 1, SSE.messageDelta (.str "tool_use") 0,
             SSE.messageStop, SSE.done] := rfl

/-- Claim C2 counterexample: two tool-call events sharing the id "t1" produce TWO
tool_use open/close pairs — the current translator has no duplicate-id
guard, so the second event is not skipped. -/
theorem stream_dedup_counterexample :
    toAnthropicStream (fun _ => "u") "mid" "mdl"
        [.toolCall "t1" "calc" (Jx.obj []), .toolCall "t1" "calc" (Jx.obj [])]
      = .ok [SSE.messageStart "mid" "mdl", SSE.contentBlockStartText 0,
             SSE.ping, SSE.contentBlockStop 0,
             SSE.contentBlockStartToolUse 1 "t1" "calc" (Jx.obj []),
             SSE.contentBlockStop 1,
             SSE.contentBlockStartToolUse 2 "t1" "calc" (Jx.obj []),
             SSE.contentBlockStop 2, SSE.messageDelta (.str "end_turn") 0,
             SSE.messageStop, SSE.done]
    ∧ countToolUseOpens "t1"
        [SSE.messageStart "mid" "mdl", SSE.contentBlockStartText 0,
         SSE.ping, SSE.contentBlockStop 0,
         SSE.contentBlockStartToolUse 1 "t1" "calc" (Jx.obj []),
         SSE.contentBlockStop 1,
         SSE.contentBlockStartToolUse 2 "t1" "calc" (Jx.obj []),
         SSE.contentBlockStop 2, SSE.messageDelta (.str "end_turn") 0,
         SSE.messageStop, SSE.done] = 2 :=
  ⟨rfl, rfl⟩

/-- Claim C2 (amended): the translator performs no duplicate-id skipping — for
every error-free input stream, the number of tool_use content_block_start
frames carrying a given id equals the number of tool-call events plus the
number of tool-input-start events with that id (so two tool-call events
sharing an id yield two open/close pairs, not one). -/
theorem stream_no_dedup (genId : Nat → String) (messageId model tid : String)
    (parts : List StreamPart) (h : parts.any isErrorPart = false) :
    ∃ evs, toAnthropicStream genId messageId model parts = .ok evs ∧
      countToolUseOpens tid evs = partsToolOpenCount tid parts := by
  obtain ⟨s1, evs, hrun, hcount⟩ :=
    processParts_toolOpens genId tid parts (streamStart messageId model).1 h
  refine ⟨(streamStart messageId model).2 ++ evs ++ streamFlush s1, ?_, ?_⟩
  · simp only [toAnthropicStream, hrun]
  · simp [countToolUseOpens_append, countToolUseOpens_flush, hcount,
      streamStart, countToolUseOpens]

theorem stream_no_dedup_witness :
    ∃ evs, toAnthropicStream (fun _ => "u") "w2" "mdl"
        [.toolCall "t9" "calc" (Jx.obj []), .toolCall "t9" "calc" (Jx.obj [])]
      = .ok evs ∧
      countToolUseOpens "t9" evs
        = partsToolOpenCount "t9"
            [.toolCall "t9" "calc" (Jx.obj []),
             .toolCall "t9" "calc" (Jx.obj [])] :=
  stream_no_dedup (fun _ => "u") "w2" "mdl" "t9" _ rfl

/-- Claim C3: evaluating the translator at the failing input
text-delta("a"), tool-call("t1"), text-delta("b") shows the bug: after the
tool call closes text block 0, the second text-delta opens a new text block
at index 2 but its content_block_delta targets index 0 (the already-closed
block), because `textBlockClosed` is reset to false before the delta index
`textBlockClosed ? contentIndex : 0` is computed; the spec requires the
delta to target the newly opened index 2.  (Finalization then emits a second
stop for index 0 and block 2 is never closed.) -/
theorem stream_delta_index_eval :
    toAnthropicStream (fun _ => "u") "mid" "mdl"
        [.textDelta "a", .toolCall "t1" "calc" (Jx.obj []), .textDelta "b"]
      = .ok [SSE.messageStart "mid" "mdl", SSE.contentBlockStartText 0,
             SSE.ping, SSE.contentBlockDelta 0 (.textDelta "a"),
             SSE.contentBlockStop 0,
             SSE.contentBlockStartToolUse 1 "t1" "calc" (Jx.obj []),
             SSE.contentBlockStop 1, SSE.contentBlockStartText 2,
             SSE.contentBlockDelta 0 (.textDelta "b"),
             SSE.contentBlockStop 0, SSE.messageDelta (.str "end_turn") 0,
             SSE.messageStop, SSE.done] := rfl

/-- Claim C4 counterexample: `mapFinishReason("toString")` does not map to
"end_turn" — the property read `FINISH_REASON_MAP["toString"]` hits the
inherited `Object.prototype.toString` member, which is truthy, so the `||`
default is skipped and the inherited non-string member is returned. -/
theorem mapFinishReason_proto_counterexample :
    mapFinishReason (some "toString") = StopReasonVal.protoMember "toString"
    ∧ StopReasonVal.protoMember "toString" ≠ StopReasonVal.str "end_turn" :=
  ⟨rfl, by decide⟩

/-- Claim C4 (amended): `mapFinishReason` is total and pure: stop maps to
end_turn, length to max_tokens, tool-calls to tool_use, content-filter to
end_turn, stop-sequence to stop_sequence; a missing value maps to end_turn;
and every other string maps to end_turn unless it names an
`Object.prototype` member (toString, valueOf, constructor, ...), in which
case the inherited truthy member is returned instead of the default. -/
theorem mapFinishReason_total (r rp : String)
    (h : (r ≠ "stop" ∧ r ≠ "length" ∧ r ≠ "tool-calls" ∧
          r ≠ "content-filter" ∧ r ≠ "stop-sequence") ∧
         r ∉ OBJECT_PROTOTYPE_KEYS ∧ rp ∈ OBJECT_PROTOTYPE_KEYS) :
    mapFinishReason none = .str "end_turn" ∧
    mapFinishReason (some "stop") = .str "end_turn" ∧
    mapFinishReason (some "length") = .str "max_tokens" ∧
    mapFinishReason (some "tool-calls") = .str "tool_use" ∧
    mapFinishReason (some "content-filter") = .str "end_turn" ∧
    mapFinishReason (some "stop-sequence") = .str "stop_sequence" ∧
    mapFinishReason (some r) = .str "end_turn" ∧
    mapFinishReason (some rp) = .protoMember rp := by
  obtain ⟨⟨h1, h2, h3, h4, h5⟩, hnp, hp⟩ := h
  refine ⟨rfl, rfl, rfl, rfl, rfl, rfl, ?_, ?_⟩
  · by_cases he : r = ""
    · simp [mapFinishReason, he, DEFAULT_FINISH_REASON]
    · simp only [OBJECT_PROTOTYPE_KEYS, List.mem_cons, List.not_mem_nil,
        or_false, not_or] at hnp
      obtain ⟨p1, p2, p3, p4, p5, p6, p7, p8, p9, p10, p11, p12⟩ := hnp
      simp [mapFinishReason, jsRecordGet, jsPropOr, FINISH_REASON_MAP,
        OBJECT_PROTOTYPE_KEYS, List.find?, he, DEFAULT_FINISH_REASON,
        Ne.symm h1, Ne.symm h2, Ne.symm h3, Ne.symm h4, Ne.symm h5,
        Ne.symm p1, Ne.symm p2, Ne.symm p3, Ne.symm p4, Ne.symm p5,
        Ne.symm p6, Ne.symm p7, Ne.symm p8, Ne.symm p9, Ne.symm p10,
        Ne.symm p11, Ne.symm p12]
  · simp only [OBJECT_PROTOTYPE_KEYS, List.mem_cons, List.not_mem_nil,
      or_false] at hp
    rcases hp with rfl | rfl | rfl | rfl | rfl | rfl | rfl | rfl | rfl |
      rfl | rfl | rfl <;> rfl

theorem mapFinishReason_total_witness :
    mapFinishReason none = .str "end_turn" ∧
    mapFinishReason (some "stop") = .str "end_turn" ∧
    mapFinishReason (some "length") = .str "max_tokens" ∧
    mapFinishReason (some "tool-calls") = .str "tool_use" ∧
    mapFinishReason (some "content-filter") = .str "end_turn" ∧
    mapFinishReason (some "stop-sequence") = .str "stop_sequence" ∧
    mapFinishReason (some "banana") = .str "end_turn" ∧
    mapFinishReason (some "toString") = .protoMember "toString" :=
  mapFinishReason_total "banana" "toString" (by decide)

/-- Claim C5 counterexample: a tool_result whose id has no match in the context
yields a tool message whose sentinel tool name is the literal
`"unknown_tool"`, not `"unknown"` as the claim states. -/
theorem toolResult_sentinel_counterexample :
    toModelMessages none
        [{ role := "user",
           content := .blocks [.toolResult "tu1" (.str "42") none] }] none
      = [ModelMsg.tool [{ toolCallId := "tu1", toolName := "unknown_tool",
                          result := "42", output := .text "42",
                          isError := false }]]
    ∧ ("unknown_tool" : String) ≠ "unknown" :=
  ⟨rfl, by decide⟩

/-- Claim C5 (amended): with no allow-list supplied, a tool_result block whose
tool_use_id is not present in the tool context still yields a generic tool
message (never an exception — the embedded function is total), and that
message carries the sentinel `"unknown_tool"` name. -/
theorem toolResult_sentinel_name (pre post : List ACBlock) (ctx : ToolCtx)
    (id : String) (content : TrContent) (isErr : Option Bool)
    (h : ctxGet ctx id = none) :
    mkToolResultMessage "unknown_tool" id content isErr
      ∈ (processUserContentBlocks (pre ++ .toolResult id content isErr :: post)
          ctx none).toolMessages := by
  induction pre with
  | nil =>
      simp only [List.nil_append, processUserContentBlocks, h, jsOrStr,
        skipByAvail]
      exact List.mem_cons_self _ _
  | cons b rest ih =>
      cases b with
      | text t => simpa [processUserContentBlocks] using ih
      | image st mt d =>
          by_cases hst : st = "base64" <;>
            simpa [processUserContentBlocks, hst] using ih
      | toolUse a b c => simpa [processUserContentBlocks] using ih
      | toolResult id2 c2 e2 =>
          simp only [List.cons_append, processUserContentBlocks, skipByAvail]
          exact List.mem_cons_of_mem _ ih

theorem toolResult_sentinel_name_witness :
    mkToolResultMessage "unknown_tool" "tu9" (.str "7") none
      ∈ (processUserContentBlocks
          ([ACBlock.text "x"] ++ .toolResult "tu9" (.str "7") none :: [])
          [("a", "b")] none).toolMessages :=
  toolResult_sentinel_name [ACBlock.text "x"] [] [("a", "b")] "tu9"
    (.str "7") none rfl

/-- Claim C6 counterexample: a tool call that supplies neither `input` nor `args`
yields a tool_use block whose input field is left unset (`none`), not
defaulted to the empty object as the claim states. -/
theorem response_input_unset_counterexample :
    (toAnthropicResponse
        { text := none,
          toolCalls := some [{ toolCallId := none, id := none,
                               toolName := some "f", name := none,
                               input := none, args := none }],
          usage := none, finishReason := none }
        "mdl" (some "req1") (fun _ => "X") "gen").content
      = [RespBlock.toolUse "toolu_X" (some "f") none]
    ∧ (none : Option Jx) ≠ some (Jx.obj []) :=
  ⟨rfl, by simp⟩

/-- Claim C6 (amended): the response content is a text block iff the text field is
non-empty, followed by exactly one tool_use block per tool call in order;
each block's id is the call's id when present and otherwise synthesized with
the `toolu_` prefix plus a fresh suffix, and its input is the call's `input`
field, else its `args` field, and is left unset when the call supplies
neither. -/
theorem response_content_structure (out : CoreOutput) (model : String)
    (requestId : Option String) (genId : Nat → String) (genMsgId : String) :
    (toAnthropicResponse out model requestId genId genMsgId).content
      = contentSpec out genId := by
  unfold toAnthropicResponse contentSpec
  rcases hc : out.toolCalls with _ | calls
  · simp [hc, toolUseBlocks]
  · rcases calls with _ | ⟨c, rest⟩ <;> simp [hc, toolUseBlocks]

/-- Claim C7: evaluating `toTools` at the failing inputs: a null entry makes the
`"input_schema" in t` test throw a TypeError, and a backend-native tool
whose tag has no entry in `TYPE_TO_TOOL` makes the call of the undefined
lookup result throw — such entries are not filtered or dropped. -/
theorem toTools_throws_eval :
    toTools [AnthToolDecl.jsNull]
        = .error "TypeError: cannot use in operator to search for input_schema in null"
    ∧ toTools [AnthToolDecl.systemTool (some "mytool") (some "bogus_tag")]
        = .error "TypeError: TYPE_TO_TOOL lookup of t.type is undefined and not callable" :=
  ⟨rfl, rfl⟩

/-- Claim C8: `resolveModelId` checks the family keywords in the fixed order
haiku, sonnet, opus by substring matching; the first match with a non-empty
configured override returns that override verbatim, and otherwise the result
is the original id under the default `anthropic:` namespace. -/
theorem resolveModelId_spec_eq (env : ModelOverrides) (modelId : String) :
    resolveModelId env modelId = resolveModelIdSpec env modelId := by
  by_cases h1 : includesStr modelId "haiku" && isTruthyStr env.HAIKU_MODEL_ID
  · simp [resolveModelId, resolveModelIdSpec, overridePairs,
      resolveModelIdLoop, List.find?, h1]
  · by_cases h2 : includesStr modelId "sonnet" && isTruthyStr env.SONNET_MODEL_ID
    · simp [resolveModelId, resolveModelIdSpec, overridePairs,
        resolveModelIdLoop, List.find?, h1, h2]
    · by_cases h3 : includesStr modelId "opus" && isTruthyStr env.OPUS_MODEL_ID <;>
        simp [resolveModelId, resolveModelIdSpec, overridePairs,
          resolveModelIdLoop, List.find?, h1, h2, h3]

lemma stepMessage_other_role (avail : Option (List String)) (s : ConvState)
    (m : AMessage) (h1 : m.role ≠ "user") (h2 : m.role ≠ "assistant") :
    stepMessage avail s m = s := by
  simp [stepMessage, h1, h2]

/-- Claim C9: a message whose role is neither "user" nor "assistant" contributes
nothing: `toModelMessages` on a list containing it equals `toModelMessages`
on the list with it removed, and the per-message step leaves the whole
conversion state (including the tool-context map) unchanged. -/
theorem nonstandard_role_skipped (system : Option SystemField)
    (pre post : List AMessage) (m : AMessage) (avail : Option (List String))
    (s : ConvState)
    (h : m.role ≠ "user" ∧ m.role ≠ "assistant") :
    toModelMessages system (pre ++ m :: post) avail
        = toModelMessages system (pre ++ post) avail
    ∧ stepMessage avail s m = s := by
  refine ⟨?_, stepMessage_other_role avail s m h.1 h.2⟩
  unfold toModelMessages
  rw [List.foldl_append, List.foldl_append, List.foldl_cons,
    stepMessage_other_role avail _ m h.1 h.2]

theorem nonstandard_role_skipped_witness :
    toModelMessages none
        ([{ role := "user", content := .str "hi" }]
          ++ { role := "tool", content := .str "x" }
          :: [{ role := "assistant", content := .str "y" }]) none
      = toModelMessages none
        ([{ role := "user", content := .str "hi" }]
          ++ [{ role := "assistant", content := .str "y" }]) none
    ∧ stepMessage none { msgs := [], ctx := [] }
        { role := "tool", content := .str "x" }
      = { msgs := [], ctx := [] } :=
  nonstandard_role_skipped none _ _ _ none _ (by decide)

/-- Claim C10: a tool-input-end event arriving while no tool block is open
(`isContentOpen` false: initially, after a previous tool-input-end, or after
an atomic tool-call) emits no downstream frames at all and leaves the
translator state unchanged. -/
theorem toolInputEnd_noop (genId : Nat → String) (s : StreamState)
    (h : s.isContentOpen = false) :
    streamTransform genId s .toolInputEnd = .ok (s, []) := by
  simp [streamTransform, h]

theorem toolInputEnd_noop_witness :
    streamTransform (fun _ => "u") initStreamState .toolInputEnd
      = .ok (initStreamState, []) :=
  toolInputEnd_noop (fun _ => "u") initStreamState rfl

end ClaudeProxy
